import Mathlib

/-! Shallow embedding of `TempLogSerialReader` from `TempLogPlot/templogplot.py`.

The Python class owns an optional pyserial handle (`_serial`, initialised to
`None`) and three parallel lists `time`, `int_temp`, `ext_temp`.  Modelling
choices:

* The pyserial handle is a `SerialPort`: an `is_open` flag plus the list of
  complete text lines currently available to the non-blocking `readline`.
  `readline` and `flush` on a handle that has been closed raise a
  port-not-open error (pyserial raises `portNotOpenError` from
  `read`/`drainOutput` once `close()` has run); `readline` on an open handle
  pops the next available line, or returns `""` when nothing is available.
  Constructing `serial.Serial(...)` is modelled by an `OpenOutcome` chosen by
  the environment: success (a fresh open handle with its pending lines),
  `ValueError` for an out-of-range baud rate, or `SerialException` for a
  device failure.
* Python floats are modelled as exact rationals.  Every numeric comparison
  made by the claims is between values produced by the same parsing
  computation, or against decimal literals that are exactly representable in
  binary floating point, so the exact-rational model and the float model
  agree on all equalities stated in this file.
* `matplotlib.dates.date2num` (2013-era epoch) is the proleptic-Gregorian
  ordinal of the date plus the elapsed fraction of the day, as a rational;
  `datetime(...)` validates its six integer fields (`isValidDateTime`) and
  raises `ValueError` when they are out of calendar range.
* The compiled regular expression
  `(?P<id>\d+),(?P<year>\d+)-(?P<month>\d+)-(?P<day>\d+),`
  `(?P<hour>\d+):(?P<minute>\d+):(?P<second>\d+),`
  `(?P<int_temp>[\d\.]+),(?P<ext_temp>[\d]+\.\d\d)`
  used with `re.match` is embedded as a deterministic maximal-munch parser.
  This is faithful because every repetition in the pattern (`\d+` and
  `[\d.]+`) is immediately followed either by a literal character that the
  repetition's character class cannot match, or (for the final `\d\d`) by
  the end of the pattern, so the backtracking engine has exactly one viable
  way to split the input: each repetition takes its maximal run.  `re.match`
  anchors at the start of the line only; trailing text after the two
  fractional digits is ignored.

Each Python method that can raise is modelled as returning the final state of
the object together with an `Option Err` holding the exception, if one
escaped; mutations performed before the raise persist, as they do in Python.
-/

namespace TempLog

/-- Exceptions that can escape the modelled methods: `ValueError` (bad baud
rate, invalid calendar fields, unparsable `float()` argument),
`SerialException` (device missing or unconfigurable), and pyserial's
port-not-open error raised when using a handle after `close()`. -/
inductive Err where
  | valueError
  | serialException
  | portNotOpen
  deriving DecidableEq

/-! ## The record grammar (the compiled regex) -/

/-- Maximal run of ASCII digits (`\d+` under greedy matching), with the rest
of the input. -/
def takeDigits : List Char → List Char × List Char
  | [] => ([], [])
  | c :: cs =>
    if c.isDigit then
      let p := takeDigits cs
      (c :: p.1, p.2)
    else ([], c :: cs)

/-- `\d+`: at least one digit. -/
def digits1 (cs : List Char) : Option (List Char × List Char) :=
  match takeDigits cs with
  | ([], _) => none
  | (d, r) => some (d, r)

/-- Maximal run of characters in the class `[\d.]`. -/
def takeNumChars : List Char → List Char × List Char
  | [] => ([], [])
  | c :: cs =>
    if c.isDigit || c == '.' then
      let p := takeNumChars cs
      (c :: p.1, p.2)
    else ([], c :: cs)

/-- `[\d\.]+`: at least one digit-or-dot character. -/
def numChars1 (cs : List Char) : Option (List Char × List Char) :=
  match takeNumChars cs with
  | ([], _) => none
  | (d, r) => some (d, r)

/-- A single literal character of the pattern. -/
def lit (c : Char) : List Char → Option (List Char)
  | [] => none
  | x :: r => if x = c then some r else none

/-- A single `\d`. -/
def digitChar : List Char → Option (Char × List Char)
  | [] => none
  | x :: r => if x.isDigit then some (x, r) else none

/-- The named groups of the regex other than `id`, as captured strings
(the Python code converts them with `int`/`float` only afterwards). -/
structure Body where
  year : List Char
  month : List Char
  day : List Char
  hour : List Char
  minute : List Char
  second : List Char
  int_temp : List Char
  ext_temp : List Char
  deriving DecidableEq

/-- The part of the pattern after `<id>,`. -/
def parseBody (cs : List Char) : Option Body :=
  match digits1 cs with
  | none => none
  | some (yc, r1) =>
  match lit '-' r1 with
  | none => none
  | some r2 =>
  match digits1 r2 with
  | none => none
  | some (moc, r3) =>
  match lit '-' r3 with
  | none => none
  | some r4 =>
  match digits1 r4 with
  | none => none
  | some (dc, r5) =>
  match lit ',' r5 with
  | none => none
  | some r6 =>
  match digits1 r6 with
  | none => none
  | some (hc, r7) =>
  match lit ':' r7 with
  | none => none
  | some r8 =>
  match digits1 r8 with
  | none => none
  | some (mic, r9) =>
  match lit ':' r9 with
  | none => none
  | some r10 =>
  match digits1 r10 with
  | none => none
  | some (sc, r11) =>
  match lit ',' r11 with
  | none => none
  | some r12 =>
  match numChars1 r12 with
  | none => none
  | some (itc, r13) =>
  match lit ',' r13 with
  | none => none
  | some r14 =>
  match digits1 r14 with
  | none => none
  | some (ewc, r15) =>
  match lit '.' r15 with
  | none => none
  | some r16 =>
  match digitChar r16 with
  | none => none
  | some (c1, r17) =>
  match digitChar r17 with
  | none => none
  | some (c2, _) =>
  some ⟨yc, moc, dc, hc, mic, sc, itc, ewc ++ '.' :: c1 :: c2 :: []⟩

/-- `regex.match(data)`: anchored at the start of the line, trailing text
ignored.  Returns the captured `id` digits and the remaining groups. -/
def parseLine (s : String) : Option (List Char × Body) :=
  match digits1 s.data with
  | none => none
  | some (idc, r1) =>
  match lit ',' r1 with
  | none => none
  | some r2 =>
  match parseBody r2 with
  | none => none
  | some b => some (idc, b)

/-! ## Numeric conversions -/

/-- Python `int` on a non-empty string of ASCII digits. -/
def digitsToNat (ds : List Char) : Nat :=
  ds.foldl (fun n c => 10 * n + (c.toNat - 48)) 0

/-- Python `float` restricted to strings over the alphabet `[0-9.]` (the only
strings the code ever passes to it): it succeeds iff the string is non-empty,
contains at most one dot and is not just a dot, and then denotes the exact
decimal value. -/
def pyFloat? (cs : List Char) : Option ℚ :=
  if cs.isEmpty then none
  else if cs.count '.' = 0 then some (mkRat (digitsToNat cs) 1)
  else if cs.count '.' = 1 then
    let w := cs.takeWhile (fun c => c != '.')
    let f := (cs.dropWhile (fun c => c != '.')).tail
    if w.isEmpty && f.isEmpty then none
    else some (mkRat (digitsToNat w * 10 ^ f.length + digitsToNat f) (10 ^ f.length))
  else none

/-! ## Calendar validation and matplotlib date numbers -/

def isLeapYear (y : Nat) : Bool :=
  (y % 4 == 0 && y % 100 != 0) || y % 400 == 0

def daysInMonth (y m : Nat) : Nat :=
  if m = 2 then (if isLeapYear y then 29 else 28)
  else if m = 4 ∨ m = 6 ∨ m = 9 ∨ m = 11 then 30
  else 31

/-- The checks performed by `datetime(year=..., ..., second=...)`; it raises
`ValueError` when any field is out of range. -/
def isValidDateTime (y mo d h mi s : Nat) : Bool :=
  decide (1 ≤ y) && decide (y ≤ 9999) && decide (1 ≤ mo) && decide (mo ≤ 12) &&
    decide (1 ≤ d) && decide (d ≤ daysInMonth y mo) &&
    decide (h ≤ 23) && decide (mi ≤ 59) && decide (s ≤ 59)

def daysBeforeYear (y : Nat) : Nat :=
  let n := y - 1
  365 * n + n / 4 - n / 100 + n / 400

def daysBeforeMonth (y m : Nat) : Nat :=
  ((List.range (m - 1)).map (fun i => daysInMonth y (i + 1))).sum

/-- `datetime.toordinal`: day number of the proleptic Gregorian calendar,
with 0001-01-01 being day 1. -/
def toOrdinal (y m d : Nat) : Nat :=
  daysBeforeYear y + daysBeforeMonth y m + d

/-- `matplotlib.dates.date2num` (days since 0001-01-01 00:00 UTC plus one,
i.e. the ordinal of the date, plus the elapsed fraction of the day), written
as the single fraction `(86400 * ordinal + seconds) / 86400`. -/
def date2num (y m d h mi s : Nat) : ℚ :=
  mkRat (86400 * toOrdinal y m d + (h * 3600 + mi * 60 + s)) 86400

/-- `datetime(**int(groups))` validity, from the captured digit strings. -/
def bodyDateValid (b : Body) : Bool :=
  isValidDateTime (digitsToNat b.year) (digitsToNat b.month) (digitsToNat b.day)
    (digitsToNat b.hour) (digitsToNat b.minute) (digitsToNat b.second)

/-- `dates.date2num(datetime(**int(groups)))`, from the captured strings. -/
def bodyDate2num (b : Body) : ℚ :=
  date2num (digitsToNat b.year) (digitsToNat b.month) (digitsToNat b.day)
    (digitsToNat b.hour) (digitsToNat b.minute) (digitsToNat b.second)

/-! ## The serial port model and the reader itself -/

/-- The pyserial handle: whether it is open, and the complete lines that
non-blocking `readline` will deliver, in order. -/
structure SerialPort where
  is_open : Bool
  pending : List String
  deriving DecidableEq

structure TempLogSerialReader where
  _serial : Option SerialPort
  time : List ℚ
  int_temp : List ℚ
  ext_temp : List ℚ
  deriving DecidableEq

/-- What the environment does when `serial.Serial(name, baud_rate, timeout=0)`
is evaluated. -/
inductive OpenOutcome where
  | ok (pending : List String)
  | badBaud
  | deviceFail
  deriving DecidableEq

namespace TempLogSerialReader

/-- `__init__`. -/
def init : TempLogSerialReader := ⟨none, [], [], []⟩

/-- `reset_data`. -/
def reset_data (r : TempLogSerialReader) : TempLogSerialReader :=
  { r with time := [], int_temp := [], ext_temp := [] }

/-- `close`: `if self._serial:` is a plain truthiness test of the attribute,
which is `None` until the first `open` and a `Serial` object (truthy even
after it has been closed) afterwards.  On a stale closed handle,
`self._serial.flush()` raises pyserial's port-not-open error after
`reset_data` has already run. -/
def close (r : TempLogSerialReader) : TempLogSerialReader × Option Err :=
  match r._serial with
  | none => (r, none)
  | some h =>
    let r1 := reset_data r
    if h.is_open then
      ({ r1 with _serial := some ⟨false, []⟩ }, none)
    else
      (r1, some Err.portNotOpen)

/-- `open`: `self.close()` first (its exception, if any, propagates), then
`self._serial = serial.Serial(name, baud_rate, timeout=0)`; if the
constructor raises, the attribute keeps its previous value. -/
def «open» (r : TempLogSerialReader) (o : OpenOutcome) :
    TempLogSerialReader × Option Err :=
  match close r with
  | (r1, some e) => (r1, some e)
  | (r1, none) =>
    match o with
    | OpenOutcome.ok p => ({ r1 with _serial := some ⟨true, p⟩ }, none)
    | OpenOutcome.badBaud => (r1, some Err.valueError)
    | OpenOutcome.deviceFail => (r1, some Err.serialException)

/-- The body of the `while data:` loop for one line: match the regex, build
the `datetime` (which may raise), then append `date2num`, `float(int_temp)`
(which may raise) and `float(ext_temp)`, in that order.  Mutations performed
before a raise persist. -/
def processLine (time int_temp ext_temp : List ℚ) (line : String) :
    List ℚ × List ℚ × List ℚ × Option Err :=
  match parseLine line with
  | none => (time, int_temp, ext_temp, none)
  | some (_, b) =>
    if bodyDateValid b then
      let time1 := time ++ [bodyDate2num b]
      match pyFloat? b.int_temp with
      | none => (time1, int_temp, ext_temp, some Err.valueError)
      | some iv =>
        match pyFloat? b.ext_temp with
        | none => (time1, int_temp ++ [iv], ext_temp, some Err.valueError)
        | some ev => (time1, int_temp ++ [iv], ext_temp ++ [ev], none)
    else (time, int_temp, ext_temp, some Err.valueError)

/-- The `while data:` loop: drain `readline` until it returns `""`; a raise
aborts the loop, leaving the remaining lines in the OS buffer.  Returns the
three lists, the lines still pending, and the escaped exception if any. -/
def runLines : List ℚ → List ℚ → List ℚ → List String →
    List ℚ × List ℚ × List ℚ × List String × Option Err
  | t, i, e, [] => (t, i, e, [], none)
  | t, i, e, l :: ls =>
    if l = "" then (t, i, e, ls, none)
    else
      match processLine t i e l with
      | (t1, i1, e1, some err) => (t1, i1, e1, ls, some err)
      | (t1, i1, e1, none) => runLines t1 i1 e1 ls

/-- `read` (the poll operation): does nothing when `_serial` is `None`;
`readline` on a stale closed handle raises the port-not-open error before
anything is appended; otherwise drains and parses the pending lines. -/
def read (r : TempLogSerialReader) : TempLogSerialReader × Option Err :=
  match r._serial with
  | none => (r, none)
  | some h =>
    if h.is_open then
      match runLines r.time r.int_temp r.ext_temp h.pending with
      | (t, i, e, rem, err) =>
        ({ _serial := some ⟨true, rem⟩, time := t, int_temp := i, ext_temp := e },
         err)
    else (r, some Err.portNotOpen)

/-! ## Reachable program states -/

/-- The operations the GUI performs on the reader. -/
inductive Op where
  | openPort (o : OpenOutcome)
  | closePort
  | poll
  deriving DecidableEq

def step (r : TempLogSerialReader) (op : Op) : TempLogSerialReader × Option Err :=
  match op with
  | Op.openPort o => «open» r o
  | Op.closePort => close r
  | Op.poll => read r

/-- Run a sequence of operations, keeping the state each one leaves behind
(the GUI keeps the object and its timer running even after an exception
escapes a handler). -/
def run (r : TempLogSerialReader) (ops : List Op) : TempLogSerialReader :=
  ops.foldl (fun s op => (step s op).1) r

def Reachable (r : TempLogSerialReader) : Prop :=
  ∃ ops, run init ops = r

def SeqsEmpty (r : TempLogSerialReader) : Prop :=
  r.time = [] ∧ r.int_temp = [] ∧ r.ext_temp = []

/-- The state invariant maintained by every operation: the three lists can be
non-empty only while the stored handle is open (samples are appended only
through an open handle, and `close` clears the lists whenever it releases
one). -/
def Inv (r : TempLogSerialReader) : Prop :=
  (r._serial = none → SeqsEmpty r) ∧
    ∀ h, r._serial = some h → h.is_open = false → SeqsEmpty r

end TempLogSerialReader

/-- The characters of a fixed well-formed line head
`id,date,time,int_temp,` up to where the ext-temp field starts; used to
state what the grammar requires of the ext-temp field. -/
def extPre : List Char := ("1,2020-01-01,00:00:00,20.0,").data

/-- What remains of the match after the fixed head `extPre`: the
`[\d]+\.\d\d` ext-temp group (the end of the line is not anchored). -/
def extTail (cs : List Char) : Option Body :=
  match digits1 cs with
  | none => none
  | some (ewc, r) =>
  match lit '.' r with
  | none => none
  | some r2 =>
  match digitChar r2 with
  | none => none
  | some (c1, r3) =>
  match digitChar r3 with
  | none => none
  | some (c2, _) =>
  some ⟨['2', '0', '2', '0'], ['0', '1'], ['0', '1'], ['0', '0'], ['0', '0'],
    ['0', '0'], ['2', '0', '.', '0'], ewc ++ '.' :: c1 :: c2 :: []⟩

/-! ## Parser lemmas -/

theorem takeDigits_all (cs : List Char) : ∀ c ∈ (takeDigits cs).1, c.isDigit = true := by
  induction cs with
  | nil => intro c hc; simp [takeDigits] at hc
  | cons a as ih =>
    intro c hc
    cases ha : a.isDigit with
    | false => simp [takeDigits, ha] at hc
    | true =>
      simp only [takeDigits, ha, if_true] at hc
      rcases List.mem_cons.mp hc with rfl | hc
      · exact ha
      · exact ih c hc

theorem takeDigits_append (w rest : List Char) (hw : ∀ c ∈ w, c.isDigit = true)
    (hr : ∀ c, rest.head? = some c → c.isDigit = false) :
    takeDigits (w ++ rest) = (w, rest) := by
  induction w with
  | nil =>
    cases rest with
    | nil => rfl
    | cons a as =>
      have ha := hr a rfl
      simp [takeDigits, ha]
  | cons a as ih =>
    have ha := hw a (List.mem_cons_self a as)
    have ih2 := ih (fun c hc => hw c (List.mem_cons_of_mem a hc))
    simp [takeDigits, ha, ih2]

theorem digits1_all (cs d r : List Char) (h : digits1 cs = some (d, r)) :
    d ≠ [] ∧ ∀ c ∈ d, c.isDigit = true := by
  unfold digits1 at h
  rcases he : takeDigits cs with ⟨d1, r1⟩
  rw [he] at h
  cases d1 with
  | nil => exact absurd h (by simp)
  | cons a as =>
    simp only [Option.some.injEq, Prod.mk.injEq] at h
    obtain ⟨h1, h2⟩ := h
    subst h1
    refine ⟨by simp, ?_⟩
    have hall := takeDigits_all cs
    rw [he] at hall
    exact hall

theorem digits1_append (w rest : List Char) (hw0 : w ≠ [])
    (hw : ∀ c ∈ w, c.isDigit = true)
    (hr : ∀ c, rest.head? = some c → c.isDigit = false) :
    digits1 (w ++ rest) = some (w, rest) := by
  unfold digits1
  rw [takeDigits_append w rest hw hr]
  cases w with
  | nil => exact absurd rfl hw0
  | cons a as => rfl

theorem digitChar_isDigit (cs : List Char) (c : Char) (r : List Char)
    (h : digitChar cs = some (c, r)) : c.isDigit = true := by
  cases cs with
  | nil => exact absurd h (by simp [digitChar])
  | cons a as =>
    unfold digitChar at h
    cases ha : a.isDigit with
    | false => simp [ha] at h
    | true =>
      simp only [ha, if_true, Option.some.injEq, Prod.mk.injEq] at h
      obtain ⟨h1, _⟩ := h
      subst h1
      exact ha

theorem digit_ne_dot (c : Char) (h : c.isDigit = true) : (c == '.') = false := by
  cases hb : c == '.' with
  | false => rfl
  | true =>
    have hc : c = '.' := eq_of_beq hb
    subst hc
    exact absurd h (by decide)

theorem takeWhile_append_not (p : Char → Bool) (w rest : List Char)
    (hw : ∀ c ∈ w, p c = true) (hr : ∀ c, rest.head? = some c → p c = false) :
    (w ++ rest).takeWhile p = w ∧ (w ++ rest).dropWhile p = rest := by
  induction w with
  | nil =>
    simp only [List.nil_append]
    cases rest with
    | nil => simp
    | cons a as =>
      have ha := hr a rfl
      simp [List.takeWhile_cons, List.dropWhile_cons, ha]
  | cons a as ih =>
    have ha := hw a (List.mem_cons_self a as)
    have ih2 := ih (fun c hc => hw c (List.mem_cons_of_mem a hc))
    simp [List.takeWhile_cons, List.dropWhile_cons, ha, ih2.1, ih2.2]

/-- The ext-temp group, whose shape the regex guarantees, is always accepted
by `float`. -/
theorem pyFloat?_shape (w : List Char) (c1 c2 : Char) (hw0 : w ≠ [])
    (hw : ∀ c ∈ w, c.isDigit = true) (h1 : c1.isDigit = true)
    (h2 : c2.isDigit = true) :
    ∃ v, pyFloat? (w ++ '.' :: c1 :: c2 :: []) = some v := by
  have hdot : ('.' : Char) ∉ w := by
    intro hmem
    exact absurd (hw '.' hmem) (by decide)
  have hcount : (w ++ '.' :: c1 :: c2 :: []).count '.' = 1 := by
    rw [List.count_append]
    rw [List.count_eq_zero.mpr hdot]
    simp [List.count_cons, digit_ne_dot c1 h1, digit_ne_dot c2 h2]
  have htw := takeWhile_append_not (fun c => c != '.') w ('.' :: c1 :: c2 :: [])
    (fun c hc => by simp [bne, digit_ne_dot c (hw c hc)])
    (fun c hc => by
      simp only [List.head?_cons, Option.some.injEq] at hc
      subst hc
      simp)
  have hval : pyFloat? (w ++ '.' :: c1 :: c2 :: []) =
      some (mkRat (digitsToNat w * 10 ^ ([c1, c2] : List Char).length +
        digitsToNat [c1, c2]) (10 ^ ([c1, c2] : List Char).length)) := by
    have hne : (w ++ '.' :: c1 :: c2 :: []).isEmpty = false := by
      cases w <;> simp
    have hwne : w.isEmpty = false := by
      cases w with
      | nil => exact absurd rfl hw0
      | cons a as => rfl
    unfold pyFloat?
    rw [hne, hcount, htw.1, htw.2]
    simp [hwne]
  exact ⟨_, hval⟩

/-- Inversion for `parseBody`: a successful match always captures an
`ext_temp` group of the shape `digits+ . digit digit`. -/
theorem parseBody_ext (cs : List Char) (b : Body) (h : parseBody cs = some b) :
    ∃ w c1 c2, b.ext_temp = w ++ '.' :: c1 :: c2 :: [] ∧ w ≠ [] ∧
      (∀ c ∈ w, c.isDigit = true) ∧ c1.isDigit = true ∧ c2.isDigit = true := by
  unfold parseBody at h
  cases h1 : digits1 cs with
  | none => simp only [h1] at h; exact absurd h (by simp)
  | some p1 =>
  obtain ⟨yc, r1⟩ := p1
  simp only [h1] at h
  cases h2 : lit '-' r1 with
  | none => simp only [h2] at h; exact absurd h (by simp)
  | some r2 =>
  simp only [h2] at h
  cases h3 : digits1 r2 with
  | none => simp only [h3] at h; exact absurd h (by simp)
  | some p3 =>
  obtain ⟨moc, r3⟩ := p3
  simp only [h3] at h
  cases h4 : lit '-' r3 with
  | none => simp only [h4] at h; exact absurd h (by simp)
  | some r4 =>
  simp only [h4] at h
  cases h5 : digits1 r4 with
  | none => simp only [h5] at h; exact absurd h (by simp)
  | some p5 =>
  obtain ⟨dc, r5⟩ := p5
  simp only [h5] at h
  cases h6 : lit ',' r5 with
  | none => simp only [h6] at h; exact absurd h (by simp)
  | some r6 =>
  simp only [h6] at h
  cases h7 : digits1 r6 with
  | none => simp only [h7] at h; exact absurd h (by simp)
  | some p7 =>
  obtain ⟨hc, r7⟩ := p7
  simp only [h7] at h
  cases h8 : lit ':' r7 with
  | none => simp only [h8] at h; exact absurd h (by simp)
  | some r8 =>
  simp only [h8] at h
  cases h9 : digits1 r8 with
  | none => simp only [h9] at h; exact absurd h (by simp)
  | some p9 =>
  obtain ⟨mic, r9⟩ := p9
  simp only [h9] at h
  cases h10 : lit ':' r9 with
  | none => simp only [h10] at h; exact absurd h (by simp)
  | some r10 =>
  simp only [h10] at h
  cases h11 : digits1 r10 with
  | none => simp only [h11] at h; exact absurd h (by simp)
  | some p11 =>
  obtain ⟨sc, r11⟩ := p11
  simp only [h11] at h
  cases h12 : lit ',' r11 with
  | none => simp only [h12] at h; exact absurd h (by simp)
  | some r12 =>
  simp only [h12] at h
  cases h13 : numChars1 r12 with
  | none => simp only [h13] at h; exact absurd h (by simp)
  | some p13 =>
  obtain ⟨itc, r13⟩ := p13
  simp only [h13] at h
  cases h14 : lit ',' r13 with
  | none => simp only [h14] at h; exact absurd h (by simp)
  | some r14 =>
  simp only [h14] at h
  cases h15 : digits1 r14 with
  | none => simp only [h15] at h; exact absurd h (by simp)
  | some p15 =>
  obtain ⟨ewc, r15⟩ := p15
  simp only [h15] at h
  cases h16 : lit '.' r15 with
  | none => simp only [h16] at h; exact absurd h (by simp)
  | some r16 =>
  simp only [h16] at h
  cases h17 : digitChar r16 with
  | none => simp only [h17] at h; exact absurd h (by simp)
  | some p17 =>
  obtain ⟨c1, r17⟩ := p17
  simp only [h17] at h
  cases h18 : digitChar r17 with
  | none => simp only [h18] at h; exact absurd h (by simp)
  | some p18 =>
  obtain ⟨c2, r18⟩ := p18
  simp only [h18] at h
  simp only [Option.some.injEq] at h
  subst h
  obtain ⟨hew0, hewd⟩ := digits1_all r14 ewc r15 h15
  exact ⟨ewc, c1, c2, rfl, hew0, hewd,
    digitChar_isDigit r16 c1 r17 h17, digitChar_isDigit r17 c2 r18 h18⟩

/-- A line accepted by the regex always has a `float`-parsable ext-temp
group. -/
theorem parseLine_ext (s : String) (idc : List Char) (b : Body)
    (h : parseLine s = some (idc, b)) : ∃ v, pyFloat? b.ext_temp = some v := by
  unfold parseLine at h
  cases h1 : digits1 s.data with
  | none => simp only [h1] at h; exact absurd h (by simp)
  | some p1 =>
  obtain ⟨idc1, r1⟩ := p1
  simp only [h1] at h
  cases h2 : lit ',' r1 with
  | none => simp only [h2] at h; exact absurd h (by simp)
  | some r2 =>
  simp only [h2] at h
  cases h3 : parseBody r2 with
  | none => simp only [h3] at h; exact absurd h (by simp)
  | some b1 =>
  simp only [h3] at h
  simp only [Option.some.injEq, Prod.mk.injEq] at h
  obtain ⟨rfl, rfl⟩ := h
  obtain ⟨w, c1, c2, hshape, hw0, hwd, h1d, h2d⟩ := parseBody_ext r2 b1 h3
  rw [hshape]
  exact pyFloat?_shape w c1 c2 hw0 hwd h1d h2d

/-- Matching a line starting with the fixed head `extPre` reduces to matching
the ext-temp group on the remainder. -/
theorem parseLine_extPre (X : List Char) :
    parseLine ⟨extPre ++ X⟩ =
      (match extTail X with
       | none => none
       | some b => some (['1'], b)) := rfl

/-- The captured `id` group affects nothing but itself: a line is parsed the
same way for any non-empty all-digit id. -/
theorem parseLine_id (idc : List Char) (rest : List Char) (h0 : idc ≠ [])
    (hd : ∀ c ∈ idc, c.isDigit = true) :
    parseLine ⟨idc ++ ',' :: rest⟩ =
      (match parseBody rest with
       | none => none
       | some b => some (idc, b)) := by
  unfold parseLine
  have hdg : digits1 (String.mk (idc ++ ',' :: rest)).data = some (idc, ',' :: rest) :=
    digits1_append idc (',' :: rest) h0 hd (fun c hc => by
      simp only [List.head?_cons, Option.some.injEq] at hc
      subst hc
      decide)
  simp only [hdg]
  simp [lit]

/-! ## Lemmas about the store operations -/

namespace TempLogSerialReader

/-- A poll that reads only non-matching (and non-empty) lines drains the
buffer, raises nothing and changes no list. -/
theorem runLines_skip (t i e : List ℚ) :
    ∀ ls : List String, (∀ l ∈ ls, l ≠ "" ∧ parseLine l = none) →
      runLines t i e ls = (t, i, e, [], none) := by
  intro ls
  induction ls with
  | nil => intro _; rfl
  | cons l ls ih =>
    intro h
    obtain ⟨hne, hnm⟩ := h l (List.mem_cons_self l ls)
    have ih2 := ih (fun x hx => h x (List.mem_cons_of_mem l hx))
    unfold runLines
    rw [if_neg hne]
    unfold processLine
    simp only [hnm]
    exact ih2

/-- `close` on an open connection: lists cleared, handle closed, no
exception. -/
theorem close_of_open (r : TempLogSerialReader) (h : SerialPort)
    (hs : r._serial = some h) (ho : h.is_open = true) :
    close r = (⟨some ⟨false, []⟩, [], [], []⟩, none) := by
  unfold close reset_data
  simp only [hs, ho, if_true]

/-- `Inv` holds initially. -/
theorem inv_init : Inv init := by
  constructor
  · intro _
    exact ⟨rfl, rfl, rfl⟩
  · intro h hs
    exact absurd hs (by simp [init])

/-- States whose handle is open satisfy `Inv` vacuously. -/
theorem inv_of_open (r : TempLogSerialReader) (h : SerialPort)
    (hs : r._serial = some h) (ho : h.is_open = true) : Inv r := by
  constructor
  · intro hn
    rw [hs] at hn
    exact absurd hn (by simp)
  · intro h2 hs2 ho2
    rw [hs] at hs2
    injection hs2 with e
    subst e
    rw [ho] at ho2
    exact absurd ho2 (by simp)

/-- `close` preserves the invariant. -/
theorem inv_close1 (r : TempLogSerialReader) (hr : Inv r) : Inv (close r).1 := by
  cases hs : r._serial with
  | none =>
    unfold close
    rw [hs]
    exact hr
  | some h =>
    cases ho : h.is_open with
    | true =>
      rw [close_of_open r h hs ho]
      exact ⟨fun _ => ⟨rfl, rfl, rfl⟩, fun _ _ _ => ⟨rfl, rfl, rfl⟩⟩
    | false =>
      unfold close reset_data
      simp only [hs, ho, if_false]
      exact ⟨fun _ => ⟨rfl, rfl, rfl⟩, fun _ _ _ => ⟨rfl, rfl, rfl⟩⟩

/-- Every operation preserves the invariant. -/
theorem inv_step (r : TempLogSerialReader) (op : Op) (hr : Inv r) :
    Inv (step r op).1 := by
  cases op with
  | closePort => exact inv_close1 r hr
  | openPort o =>
    show Inv («open» r o).1
    unfold «open»
    rcases hc : close r with ⟨r1, e⟩
    have hr1 : Inv r1 := by
      have := inv_close1 r hr
      rw [hc] at this
      exact this
    cases e with
    | some err => exact hr1
    | none =>
      cases o with
      | ok p =>
        refine ⟨fun hn => absurd hn (by simp), ?_⟩
        intro h2 hs2 ho2
        simp only at hs2
        injection hs2 with e2
        subst e2
        exact absurd ho2 (by simp)
      | badBaud => exact hr1
      | deviceFail => exact hr1
  | poll =>
    show Inv (read r).1
    cases hs : r._serial with
    | none =>
      unfold read
      rw [hs]
      exact hr
    | some h =>
      cases ho : h.is_open with
      | false =>
        unfold read
        simp only [hs, ho, if_false]
        exact hr
      | true =>
        unfold read
        simp only [hs, ho, if_true]
        rcases hrl : runLines r.time r.int_temp r.ext_temp h.pending with
          ⟨t, i, e, rem, err⟩
        refine ⟨fun hn => absurd hn (by simp), ?_⟩
        intro h2 hs2 ho2
        simp only at hs2
        injection hs2 with e2
        subst e2
        exact absurd ho2 (by simp)

/-- Running any sequence of operations preserves the invariant. -/
theorem inv_run (ops : List Op) : ∀ r : TempLogSerialReader, Inv r → Inv (run r ops) := by
  induction ops with
  | nil => intro r hr; exact hr
  | cons op ops ih => intro r hr; exact ih _ (inv_step r op hr)

/-- Every reachable state satisfies the invariant. -/
theorem inv_reachable (r : TempLogSerialReader) (hr : Reachable r) : Inv r := by
  obtain ⟨ops, rfl⟩ := hr
  exact inv_run ops init inv_init

/-- Whatever the state, the lists are empty right after `close` runs
(`close` either was a no-op on a `None` handle — and then the invariant
says the lists were already empty — or cleared them). -/
theorem seqsEmpty_close (r : TempLogSerialReader) (hi : Inv r) :
    SeqsEmpty (close r).1 := by
  cases hs : r._serial with
  | none =>
    have hse := hi.1 hs
    unfold close
    rw [hs]
    exact hse
  | some h =>
    cases ho : h.is_open with
    | true =>
      rw [close_of_open r h hs ho]
      exact ⟨rfl, rfl, rfl⟩
    | false =>
      unfold close reset_data
      simp only [hs, ho, if_false]
      exact ⟨rfl, rfl, rfl⟩

end TempLogSerialReader

/-! ## The claims -/

open TempLogSerialReader

/-- C1 (counterexample): the claim says each processed line appends to all
three sequences or to none.  On the grammar-matching line
`1,2020-01-01,00:00:00,.,20.00` (internal-temperature field `.`), the
timestamp is appended, then `float('.')` raises, so after the poll the time
list has one element while the two temperature lists are empty. -/
theorem C1_counterexample :
    (run init [Op.openPort (OpenOutcome.ok ["1,2020-01-01,00:00:00,.,20.00\n"]),
      Op.poll]).time.length = 1 ∧
    (run init [Op.openPort (OpenOutcome.ok ["1,2020-01-01,00:00:00,.,20.00\n"]),
      Op.poll]).int_temp.length = 0 ∧
    (run init [Op.openPort (OpenOutcome.ok ["1,2020-01-01,00:00:00,.,20.00\n"]),
      Op.poll]).ext_temp.length = 0 := by decide

/-- C1 (amended): a processed line appends one element to all three
sequences or to none of them, except when the line matches the grammar with
a valid date but its internal-temperature field is not a well-formed decimal
numeral: then only the timestamp is appended and a `ValueError` escapes. -/
theorem C1_amended (t i e : List ℚ) (line : String) :
    processLine t i e line = (t, i, e, none) ∨
    (∃ x y z, processLine t i e line = (t ++ [x], i ++ [y], e ++ [z], none)) ∨
    processLine t i e line = (t, i, e, some Err.valueError) ∨
    (∃ x, processLine t i e line = (t ++ [x], i, e, some Err.valueError)) := by
  cases hp : parseLine line with
  | none =>
    left
    simp only [processLine, hp]
  | some p =>
    obtain ⟨idc, b⟩ := p
    cases hd : bodyDateValid b with
    | false =>
      right; right; left
      simp [processLine, hp, hd]
    | true =>
      cases hi : pyFloat? b.int_temp with
      | none =>
        right; right; right
        exact ⟨bodyDate2num b, by simp only [processLine, hp, hd, if_true, hi]⟩
      | some iv =>
        obtain ⟨v, hv⟩ := parseLine_ext line idc b hp
        right; left
        exact ⟨bodyDate2num b, iv, v,
          by simp only [processLine, hp, hd, if_true, hi, hv]⟩

/-- C2: a poll whose available lines all fail to match the grammar raises
nothing, appends nothing and leaves the three sequences unchanged. -/
theorem C2_theorem (r : TempLogSerialReader) (h : SerialPort)
    (hs : r._serial = some h) (ho : h.is_open = true)
    (hl : ∀ l ∈ h.pending, l ≠ "" ∧ parseLine l = none) :
    TempLogSerialReader.read r = ({ r with _serial := some ⟨true, []⟩ }, none) := by
  unfold TempLogSerialReader.read
  simp only [hs, ho, if_true,
    runLines_skip r.time r.int_temp r.ext_temp h.pending hl]

/-- C2 (witness): polling the non-matching line `x,bad,line` leaves an empty
store unchanged and raises nothing. -/
theorem C2_witness :
    TempLogSerialReader.read ⟨some ⟨true, ["x,bad,line\n"]⟩, [], [], []⟩
      = (⟨some ⟨true, []⟩, [], [], []⟩, none) :=
  C2_theorem ⟨some ⟨true, ["x,bad,line\n"]⟩, [], [], []⟩ ⟨true, ["x,bad,line\n"]⟩
    rfl rfl (by decide)

/-- C3 (counterexample): the claim says a grammar-matching line with
out-of-range calendar fields is silently skipped and the failure is not
propagated.  On `1,2020-13-01,00:00:00,20.0,20.00` (month 13) the line
matches the grammar, yet `poll` propagates a `ValueError` from the
`datetime` constructor instead of skipping silently. -/
theorem C3_counterexample :
    (parseLine "1,2020-13-01,00:00:00,20.0,20.00\n").isSome = true ∧
    TempLogSerialReader.read ⟨some ⟨true, ["1,2020-13-01,00:00:00,20.0,20.00\n"]⟩, [], [], []⟩
      = (⟨some ⟨true, []⟩, [], [], []⟩, some Err.valueError) := by decide

/-- C3 (amended): a grammar-matching line whose date/time fields are out of
calendar range appends nothing to any sequence, but the `ValueError` raised
by the `datetime` constructor escapes `poll` (aborting the drain loop)
instead of being swallowed. -/
theorem C3_amended (t i e : List ℚ) (line : String) (idc : List Char) (b : Body)
    (hp : parseLine line = some (idc, b)) (hd : bodyDateValid b = false) :
    processLine t i e line = (t, i, e, some Err.valueError) := by
  simp [processLine, hp, hd]

/-- C3 (amended, witness): the month-13 line appends nothing and raises. -/
theorem C3_amended_witness :
    processLine [] [] [] "1,2020-13-01,00:00:00,20.0,20.00\n"
      = ([], [], [], some Err.valueError) :=
  C3_amended [] [] [] "1,2020-13-01,00:00:00,20.0,20.00\n" ['1']
    ⟨['2', '0', '2', '0'], ['1', '3'], ['0', '1'], ['0', '0'], ['0', '0'],
      ['0', '0'], ['2', '0', '.', '0'], ['2', '0', '.', '0', '0']⟩
    (by decide) (by decide)

/-- C4 (counterexample): the claim says every grammar-matching line with
in-range calendar fields appends exactly one sample and each sequence grows
by one.  On `2,2021-02-03,04:05:06,..,30.00` (internal-temperature field
`..`, which matches `[\d.]+`) the date is valid, the timestamp is appended,
but `float('..')` raises: the temperature lists do not grow and a
`ValueError` escapes. -/
theorem C4_counterexample :
    (parseLine "2,2021-02-03,04:05:06,..,30.00\n").isSome = true ∧
    processLine [] [] [] "2,2021-02-03,04:05:06,..,30.00\n"
      = ([date2num 2021 2 3 4 5 6], [], [], some Err.valueError) := by decide

/-- C4 (amended): for every grammar-matching line with in-range calendar
fields whose temperature fields are well-formed decimal numerals, `poll`
appends exactly one sample whose timestamp and two temperatures equal the
parsed field values; each sequence grows by exactly one element and all
previously stored elements are preserved in order. -/
theorem C4_amended (t i e : List ℚ) (line : String) (idc : List Char) (b : Body)
    (iv ev : ℚ) (hp : parseLine line = some (idc, b)) (hd : bodyDateValid b = true)
    (hi : pyFloat? b.int_temp = some iv) (he : pyFloat? b.ext_temp = some ev) :
    processLine t i e line = (t ++ [bodyDate2num b], i ++ [iv], e ++ [ev], none) := by
  simp only [processLine, hp, hd, if_true, hi, he]

/-- C4 (amended, witness): the spec's first example line appends the sample
(2020-01-01T00:00:00, 20.0, 20.00), and the spec's two-line example yields
internal readings [20.0, 20.5] and external readings [20.0, 20.5]. -/
theorem C4_amended_witness :
    processLine [] [] [] "1,2020-01-01,00:00:00,20.0,20.00\n"
      = ([] ++ [bodyDate2num ⟨['2', '0', '2', '0'], ['0', '1'], ['0', '1'],
          ['0', '0'], ['0', '0'], ['0', '0'], ['2', '0', '.', '0'],
          ['2', '0', '.', '0', '0']⟩],
        [] ++ [mkRat 200 10], [] ++ [mkRat 2000 100], none) ∧
    (run init [Op.openPort (OpenOutcome.ok ["1,2020-01-01,00:00:00,20.0,20.00\n",
        "2,2020-01-01,00:00:01,20.5,20.50\n"]), Op.poll]).int_temp
      = [20, mkRat 41 2] ∧
    (run init [Op.openPort (OpenOutcome.ok ["1,2020-01-01,00:00:00,20.0,20.00\n",
        "2,2020-01-01,00:00:01,20.5,20.50\n"]), Op.poll]).ext_temp
      = [20, mkRat 41 2] :=
  ⟨C4_amended [] [] [] "1,2020-01-01,00:00:00,20.0,20.00\n" ['1']
      ⟨['2', '0', '2', '0'], ['0', '1'], ['0', '1'], ['0', '0'], ['0', '0'],
        ['0', '0'], ['2', '0', '.', '0'], ['2', '0', '.', '0', '0']⟩
      (mkRat 200 10) (mkRat 2000 100) (by decide) (by decide) (by decide)
      (by decide),
    by decide, by decide⟩

/-- C5 (counterexample): the claim says a line whose external-temperature
field has more than two decimal digits is rejected.  The regex is not
anchored at the end of the line, so `1,2020-01-01,00:00:00,20.0,20.505` is
accepted: the ext-temp group captures `20.50` and a sample with external
reading 20.5 is appended. -/
theorem C5_counterexample :
    processLine [] [] [] "1,2020-01-01,00:00:00,20.0,20.505\n"
      = ([737425], [20], [mkRat 41 2], none) := by decide

/-- C5 (amended): the external-temperature field must provide at least one
whole digit, a dot, and at least two digits after the dot — with fewer than
two digits after the dot (zero or one, whether followed by a non-digit or by
the end of the line) the line is rejected; but more than two digits after
the dot does not cause rejection, since matching is not anchored at the end
of the line (the counterexample shows `20.505` accepted as 20.50). -/
theorem C5_amended (w : List Char) (hw0 : w ≠ []) (hw : ∀ c ∈ w, c.isDigit = true)
    (d c : Char) (hd : d.isDigit = true) (hc : c.isDigit = false)
    (tail : List Char) :
    parseLine ⟨extPre ++ (w ++ ['.'])⟩ = none ∧
    parseLine ⟨extPre ++ (w ++ '.' :: c :: tail)⟩ = none ∧
    parseLine ⟨extPre ++ (w ++ ['.', d])⟩ = none ∧
    parseLine ⟨extPre ++ (w ++ '.' :: d :: c :: tail)⟩ = none := by
  refine ⟨?_, ?_, ?_, ?_⟩
  · have e1 := digits1_append w ['.'] hw0 hw (fun cc hcc => by
      simp only [List.head?_cons, Option.some.injEq] at hcc
      subst hcc; decide)
    rw [parseLine_extPre]
    unfold extTail
    simp [e1, lit, digitChar]
  · have e1 := digits1_append w ('.' :: c :: tail) hw0 hw (fun cc hcc => by
      simp only [List.head?_cons, Option.some.injEq] at hcc
      subst hcc; decide)
    rw [parseLine_extPre]
    unfold extTail
    simp [e1, lit, digitChar, hc]
  · have e1 := digits1_append w ['.', d] hw0 hw (fun cc hcc => by
      simp only [List.head?_cons, Option.some.injEq] at hcc
      subst hcc; decide)
    rw [parseLine_extPre]
    unfold extTail
    simp [e1, lit, digitChar, hd]
  · have e1 := digits1_append w ('.' :: d :: c :: tail) hw0 hw (fun cc hcc => by
      simp only [List.head?_cons, Option.some.injEq] at hcc
      subst hcc; decide)
    rw [parseLine_extPre]
    unfold extTail
    simp [e1, lit, digitChar, hd, hc]

/-- C5 (amended, witness): the spec's example field `20.5` (one digit after
the dot) is rejected. -/
theorem C5_amended_witness :
    parseLine "1,2020-01-01,00:00:00,20.0,20.5\n" = none :=
  (C5_amended ['2', '0'] (by decide) (by decide) '5' '\n' (by decide) (by decide)
    []).2.2.2

/-- C6: the claim says `close()` is safe to call any number of times.  After
`open(); close()`, the attribute still holds the (truthy) closed handle, so
a second `close()` runs `flush()` on a closed port, which raises pyserial's
port-not-open error — the second `close()` does not complete without
error. -/
theorem C6_theorem :
    close (run init [Op.openPort (OpenOutcome.ok []), Op.closePort])
      = (⟨some ⟨false, []⟩, [], [], []⟩, some Err.portNotOpen) := by decide

/-- C7: the claim says that after `close()` a `poll()` does nothing and
raises no error.  After `open(); close()` the attribute still holds the
(truthy) closed handle, so `poll()` calls `readline()` on a closed port,
which raises pyserial's port-not-open error instead of doing nothing (the
three sequences are indeed empty). -/
theorem C7_theorem :
    TempLogSerialReader.read (run init [Op.openPort (OpenOutcome.ok []), Op.closePort])
      = (⟨some ⟨false, []⟩, [], [], []⟩, some Err.portNotOpen) := by decide

/-- C8: calling `open` while a connection is open performs a full `close`
first — the prior handle is released and all three sequences reset to
empty — before the new connection is installed. -/
theorem C8_theorem (r : TempLogSerialReader) (h : SerialPort)
    (hs : r._serial = some h) (ho : h.is_open = true) (p : List String) :
    «open» r (OpenOutcome.ok p) = (⟨some ⟨true, p⟩, [], [], []⟩, none) := by
  unfold «open»
  rw [close_of_open r h hs ho]

/-- C8 (witness): reopening over an open connection with stored samples
resets the three sequences and installs the new handle. -/
theorem C8_witness :
    «open» ⟨some ⟨true, ["x"]⟩, [3], [4], [5]⟩ (OpenOutcome.ok ["y"])
      = (⟨some ⟨true, ["y"]⟩, [], [], []⟩, none) :=
  C8_theorem ⟨some ⟨true, ["x"]⟩, [3], [4], [5]⟩ ⟨true, ["x"]⟩ rfl rfl ["y"]

/-- C9: the id field is used only for grammar validation: two lines that
match and differ only in their (non-empty, all-digit) id field produce
identical stores. -/
theorem C9_theorem (id1 id2 rest : List Char)
    (h1 : id1 ≠ []) (h1d : ∀ c ∈ id1, c.isDigit = true)
    (h2 : id2 ≠ []) (h2d : ∀ c ∈ id2, c.isDigit = true)
    (t i e : List ℚ) :
    processLine t i e ⟨id1 ++ ',' :: rest⟩ = processLine t i e ⟨id2 ++ ',' :: rest⟩ := by
  unfold processLine
  rw [parseLine_id id1 rest h1 h1d, parseLine_id id2 rest h2 h2d]
  cases parseBody rest with
  | none => rfl
  | some b => rfl

/-- C9 (witness): ids `1` and `27` on the same record body give the same
result. -/
theorem C9_witness :
    processLine [] [] [] ⟨['1'] ++ ',' :: ("2020-01-01,00:00:00,20.0,20.00\n").data⟩
      = processLine [] [] []
          ⟨['2', '7'] ++ ',' :: ("2020-01-01,00:00:00,20.0,20.00\n").data⟩ :=
  C9_theorem ['1'] ['2', '7'] (("2020-01-01,00:00:00,20.0,20.00\n").data)
    (by decide) (by decide) (by decide) (by decide) [] [] []

/-- C10: from any reachable state, if `open` raises (bad baud rate, device
failure, or the flush of a stale handle), the store is left with all three
sequences empty: any previously open connection was closed and the store
reset before the failing step. -/
theorem C10_theorem (r : TempLogSerialReader) (hr : Reachable r) (o : OpenOutcome)
    (hf : («open» r o).2 ≠ none) : SeqsEmpty («open» r o).1 := by
  have hi := inv_reachable r hr
  have hce : SeqsEmpty (close r).1 := seqsEmpty_close r hi
  rcases hcl : close r with ⟨r1, e1⟩
  rw [hcl] at hce
  unfold «open» at hf ⊢
  rw [hcl] at hf ⊢
  cases e1 with
  | some err => exact hce
  | none =>
    cases o with
    | ok p => exact absurd rfl hf
    | badBaud => exact hce
    | deviceFail => exact hce

/-- C10 (witness): an `open` with a bad baud rate from the initial state
raises and leaves the three sequences empty. -/
theorem C10_witness :
    Reachable init ∧ («open» init OpenOutcome.badBaud).2 ≠ none ∧
      SeqsEmpty («open» init OpenOutcome.badBaud).1 :=
  ⟨⟨[], rfl⟩, by decide,
    C10_theorem init ⟨[], rfl⟩ OpenOutcome.badBaud (by decide)⟩

end TempLog
